import Mathlib

/-!
Verification of the position-sizing and consensus-aggregation core of the
polymarket-agent repository.  Python floats are embedded as exact rationals,
the Python `round(x, 2)` builtin as round-half-to-even at two decimal places,
and code that can raise an exception as `Except String`.  Each definition
follows one function of the source (`src/utils/kelly.py`,
`src/analysis/ai_analyzer.py`, `src/trading/executor.py`) line by line.
-/

/-- The Python builtin `round(x)` restricted to what the sources use:
round to the nearest integer, ties to the even integer. -/
def roundHalfEven (x : ℚ) : ℤ :=
  if x - ⌊x⌋ < 1/2 then ⌊x⌋
  else if 1/2 < x - ⌊x⌋ then ⌊x⌋ + 1
  else if ⌊x⌋ % 2 = 0 then ⌊x⌋ else ⌊x⌋ + 1

/-- The Python builtin `round(x, 2)`: round to two decimal places,
ties to an even last digit. -/
def round2 (x : ℚ) : ℚ :=
  (roundHalfEven (100 * x) : ℚ) / 100

/-- Side of a bet, the strings "YES" and "NO" of `kelly.py`. -/
inductive Side where
  | yes
  | no
deriving DecidableEq

/-- The rejection reason string built in `kelly.py` line 74:
`Edge e below minimum m` formatted from these two numbers. -/
inductive RejectReason where
  | edgeBelowMinimum (edge minEdge : ℚ)
deriving DecidableEq

/-- Configuration of `KellyCriterion.__init__` (`kelly.py` lines 15-34). -/
structure KellyConfig where
  bankroll : ℚ
  max_bet_pct : ℚ
  min_edge_pct : ℚ
  kelly_fraction : ℚ
deriving DecidableEq

/-- The environment defaults of `KellyCriterion.__init__`:
INITIAL_BANKROLL 100, MAX_BET_PERCENTAGE 0.05, MIN_EDGE_PERCENTAGE 0.15,
kelly_fraction 0.25. -/
def defaultKellyConfig : KellyConfig :=
  { bankroll := 100, max_bet_pct := 1/20, min_edge_pct := 3/20,
    kelly_fraction := 1/4 }

/-- The Python builtin `abs` on a float. -/
def pyAbs (x : ℚ) : ℚ :=
  if x < 0 then -x else x

/-- `KellyCriterion.calculate_edge` (`kelly.py` lines 36-51). -/
def calculate_edge (estimated_prob market_prob : ℚ) : ℚ :=
  estimated_prob - market_prob

/-- The result dict of `KellyCriterion.kelly_bet_size`.  The rejection dict
of lines 72-78 omits the keys `kelly_raw`, `kelly_adjusted`,
`bet_percentage`, `expected_value`; those fields default to 0 here, and
`reason` is absent (`none`) in the betting dict of lines 105-114. -/
structure KellyResult where
  should_bet : Bool
  side : Option Side
  edge : ℚ
  bet_size : ℚ
  kelly_raw : ℚ := 0
  kelly_adjusted : ℚ := 0
  bet_percentage : ℚ := 0
  expected_value : ℚ := 0
  reason : Option RejectReason := none
deriving DecidableEq

/-- `kelly.py` lines 93-96: `b = odds - 1`, `q = 1 - p`,
`kelly_fraction_raw = (b * p - q) / b if b > 0 else 0`. -/
def kellyRawFraction (p odds : ℚ) : ℚ :=
  if 0 < odds - 1 then ((odds - 1) * p - (1 - p)) / (odds - 1) else 0

/-- `kelly.py` lines 99-101: apply the fractional-Kelly multiplier, cap at
`max_bet_pct`, floor at 0. -/
def kellyCappedFraction (cfg : KellyConfig) (p odds : ℚ) : ℚ :=
  max (min (kellyRawFraction p odds * cfg.kelly_fraction) cfg.max_bet_pct) 0

/-- `kelly.py` lines 93-114, the common tail of both sides once `side`, the
win probability `p` and the decimal odds are fixed: `bet_size` is
`bankroll * kelly_capped` and `should_bet` is decided on the unrounded
`bet_size`, while the returned `bet_size` is `round(bet_size, 2)`. -/
def kellyBody (cfg : KellyConfig) (s : Side) (edge p odds : ℚ) : KellyResult :=
  { should_bet := decide (0 < cfg.bankroll * kellyCappedFraction cfg p odds),
    side := some s,
    edge := edge,
    kelly_raw := kellyRawFraction p odds,
    kelly_adjusted := kellyRawFraction p odds * cfg.kelly_fraction,
    bet_size := round2 (cfg.bankroll * kellyCappedFraction cfg p odds),
    bet_percentage := kellyCappedFraction cfg p odds * 100,
    expected_value := cfg.bankroll * kellyCappedFraction cfg p odds * edge }

/-- `KellyCriterion.kelly_bet_size` (`kelly.py` lines 53-114).  The Python
expressions `1 / market_prob` (line 84) and `1 / (1 - market_prob)`
(line 88) raise `ZeroDivisionError` when the denominator is zero; that
exception is embedded as `Except.error`.  On the NO side line 89 replaces
`edge` by its absolute value before building the result. -/
def kelly_bet_size (cfg : KellyConfig) (estimated_prob market_prob : ℚ) :
    Except String KellyResult :=
  let edge := calculate_edge estimated_prob market_prob
  if pyAbs edge < cfg.min_edge_pct then
    Except.ok
      { should_bet := false, side := none, edge := edge, bet_size := 0,
        reason := some (RejectReason.edgeBelowMinimum edge cfg.min_edge_pct) }
  else if 0 < edge then
    if market_prob = 0 then
      Except.error "ZeroDivisionError: float division by zero"
    else
      Except.ok (kellyBody cfg Side.yes edge estimated_prob (1 / market_prob))
  else
    if 1 - market_prob = 0 then
      Except.error "ZeroDivisionError: float division by zero"
    else
      Except.ok (kellyBody cfg Side.no (pyAbs edge) (1 - estimated_prob)
        (1 / (1 - market_prob)))

/-- Python `str.strip()` on the ASCII whitespace the sources produce. -/
def pyStrip (cs : List Char) : List Char :=
  ((cs.dropWhile Char.isWhitespace).reverse.dropWhile Char.isWhitespace).reverse

/-- Python `str.split(sep)` for a one-character separator, the only form
the sources use (separators ":", "/" and a newline). -/
def splitChar (sep : Char) : List Char → List (List Char)
  | [] => [[]]
  | c :: cs =>
    let r := splitChar sep cs
    if c = sep then [] :: r else (c :: r.headD []) :: r.tail

/-- Numeric value of a list of decimal digit characters. -/
def digitsVal (cs : List Char) : ℕ :=
  cs.foldl (fun n c => 10 * n + (c.toNat - 48)) 0

/-- The Python builtin `float` on the plain decimal literals the model
responses are asked for: optional sign, digits, optional fractional part,
surrounding whitespace ignored.  Exotic accepted spellings (exponents,
infinities, underscores) are outside the inputs this core exercises and
parse to `none` here. -/
def pyFloat (cs : List Char) : Option ℚ :=
  let t := pyStrip cs
  let s : ℚ × List Char :=
    if t.headD ' ' = '-' then (-1, t.tail)
    else if t.headD ' ' = '+' then (1, t.tail)
    else (1, t)
  match splitChar '.' s.2 with
  | [i] =>
    if i ≠ [] ∧ i.all Char.isDigit then some (s.1 * digitsVal i) else none
  | [i, f] =>
    if (i ≠ [] ∨ f ≠ []) ∧ i.all Char.isDigit ∧ f.all Char.isDigit then
      some (s.1 * ((digitsVal i : ℚ) + (digitsVal f : ℚ) / 10 ^ f.length))
    else none
  | _ => none

/-- The Python builtin `int` on a string: optional sign, decimal digits,
surrounding whitespace ignored. -/
def pyInt (cs : List Char) : Option ℤ :=
  let t := pyStrip cs
  let s : ℤ × List Char :=
    if t.headD ' ' = '-' then (-1, t.tail)
    else if t.headD ' ' = '+' then (1, t.tail)
    else (1, t)
  if s.2 ≠ [] ∧ s.2.all Char.isDigit then some (s.1 * digitsVal s.2) else none

/-- One entry of the `results` list built by
`AIAnalyzer.consensus_analysis` (`ai_analyzer.py` lines 284-290). -/
structure ModelResult where
  model : String
  probability : ℚ
  confidence : ℤ
  reasoning : String
  edge : ℚ
deriving DecidableEq

/-- The mutable parse state of the response loop of `consensus_analysis`
(`ai_analyzer.py` lines 266-268): `ai_prob` starts at the market odds,
`confidence` at 5, `reasoning` empty. -/
structure ParsedFields where
  ai_prob : ℚ
  confidence : ℤ
  reasoning : List Char
deriving DecidableEq

/-- `ai_analyzer.py` line 273: take `line.split(":")[1]`, strip it, delete
every percent sign, and parse it as a Python float. -/
def probParse (l : List Char) : Option ℚ :=
  pyFloat ((pyStrip ((splitChar ':' l).getD 1 [])).filter (fun c => c ≠ '%'))

/-- `ai_analyzer.py` line 278: take `line.split(":")[1]`, strip it, and
parse it as a Python int. -/
def confParse (l : List Char) : Option ℤ :=
  pyInt (pyStrip ((splitChar ':' l).getD 1 []))

/-- The body of the line loop of `consensus_analysis` (`ai_analyzer.py`
lines 270-282): an `if`/`elif` chain on the line prefix; a failed parse
(`except: pass`) leaves the state unchanged.  The REASONING branch keeps
the text after the first colon, stripped. -/
def parseLine (st : ParsedFields) (l : List Char) : ParsedFields :=
  if ("PROBABILITY:".data).isPrefixOf l then
    match probParse l with
    | some v => { st with ai_prob := v / 100 }
    | none => st
  else if ("CONFIDENCE:".data).isPrefixOf l then
    match confParse l with
    | some v => { st with confidence := v }
    | none => st
  else if ("REASONING:".data).isPrefixOf l then
    { st with reasoning := pyStrip (l.drop 10) }
  else st

/-- `ai_analyzer.py` line 270: `response.strip().split("\n")`. -/
def pyLines (response : String) : List (List Char) :=
  splitChar '\n' (pyStrip response.data)

/-- Build one `results` entry from a successful chat response
(`ai_analyzer.py` lines 264-290): parse the lines starting from the
defaults, keep the model name after the last slash, and record the edge
against the market odds. -/
def parseToResult (current_odds : ℚ) (model response : String) :
    ModelResult :=
  let st := (pyLines response).foldl parseLine
    { ai_prob := current_odds, confidence := 5, reasoning := [] }
  { model := String.mk ((splitChar '/' model.data).getLastD []),
    probability := st.ai_prob,
    confidence := st.confidence,
    reasoning := String.mk st.reasoning,
    edge := st.ai_prob - current_odds }

/-- The model-query loop of `consensus_analysis` (`ai_analyzer.py` lines
256-293).  Each model name is paired with the outcome of its chat call,
injected as an already-resolved value: a successful call contributes a
parsed entry to `results`, a raised exception contributes a
`(model, message)` pair to `errors`. -/
def runConsensusLoop (current_odds : ℚ) :
    List (String × Except String String) →
    List ModelResult × List (String × String)
  | [] => ([], [])
  | c :: rest =>
    let acc := runConsensusLoop current_odds rest
    match c.2 with
    | Except.ok resp => (parseToResult current_odds c.1 resp :: acc.1, acc.2)
    | Except.error e => (acc.1, (c.1, e) :: acc.2)

/-- The result dict of `consensus_analysis`.  The all-models-failed dict of
lines 296-301 carries only `consensus`, `recommendation`, `error` and
`errors`; the remaining keys are absent, embedded as `none`. -/
structure ConsensusOutput where
  consensus : String
  recommendation : String
  error : Option String := none
  errors : List (String × String) := []
  avg_probability : Option ℚ := none
  avg_confidence : Option ℚ := none
  avg_edge : Option ℚ := none
  yes_votes : Option ℕ := none
  no_votes : Option ℕ := none
  hold_votes : Option ℕ := none
  models_used : Option ℕ := none
deriving DecidableEq

/-- The aggregation tail of `consensus_analysis` (`ai_analyzer.py` lines
295-339): the explicit ERROR/SKIP dict on empty `results`, otherwise
arithmetic means over all entries, vote counts at the fixed 0.05 edge
threshold, and the 2-of-3 direction rule of lines 315-323. -/
def consensusFromResults (current_odds : ℚ) (results : List ModelResult)
    (errors : List (String × String)) : ConsensusOutput :=
  if results.isEmpty then
    { consensus := "ERROR", recommendation := "SKIP",
      error := some "All models failed", errors := errors }
  else
    let avg_prob := (results.map (fun r => r.probability)).sum / results.length
    let avg_confidence :=
      (results.map (fun r => (r.confidence : ℚ))).sum / results.length
    let yes_votes :=
      (results.filter (fun r => decide ((1:ℚ)/20 < r.edge))).length
    let no_votes :=
      (results.filter (fun r => decide (r.edge < -(1/20)))).length
    let rc : String × String :=
      if 2 ≤ yes_votes then ("BET YES", "BULLISH")
      else if 2 ≤ no_votes then ("BET NO", "BEARISH")
      else ("SKIP", "MIXED")
    { consensus := rc.2, recommendation := rc.1,
      errors := errors,
      avg_probability := some avg_prob,
      avg_confidence := some avg_confidence,
      avg_edge := some (avg_prob - current_odds),
      yes_votes := some yes_votes,
      no_votes := some no_votes,
      hold_votes := some (results.length - yes_votes - no_votes),
      models_used := some results.length }

/-- `AIAnalyzer.consensus_analysis` (`ai_analyzer.py` lines 212-339) as a
function of the market odds and the per-model chat outcomes; prompt
construction and the network calls themselves are the external inference
collaborator. -/
def consensus_analysis (current_odds : ℚ)
    (calls : List (String × Except String String)) : ConsensusOutput :=
  consensusFromResults current_odds
    (runConsensusLoop current_odds calls).1
    (runConsensusLoop current_odds calls).2

/-- `executor.py` line 22: minimum confidence score out of 10. -/
def MIN_CONFIDENCE : ℚ := 5

/-- `executor.py` line 21: maximum dollars per trade. -/
def MAX_BET_SIZE : ℚ := 10

/-- The reason strings of `TradeExecutor.validate_trade_signal`
(`executor.py` lines 498-508), each formatted from the data its
constructor carries. -/
inductive ValidateReason where
  | nonTradeAction (action : String)
  | insufficientConfidence (confidence minConfidence : ℚ)
  | mixedConsensus
  | accepted (consensus : String) (confidence : ℚ)
deriving DecidableEq

/-- `TradeExecutor.validate_trade_signal` (`executor.py` lines 485-508).
The `edge` argument is accepted and ignored, as in the source. -/
def validate_trade_signal (action : String) (edge confidence : ℚ)
    (consensus : String) : Bool × ValidateReason :=
  if action ≠ "BET YES" ∧ action ≠ "BET NO" then
    (false, ValidateReason.nonTradeAction action)
  else if confidence < MIN_CONFIDENCE then
    (false, ValidateReason.insufficientConfidence confidence MIN_CONFIDENCE)
  else if consensus = "MIXED" then
    (false, ValidateReason.mixedConsensus)
  else
    (true, ValidateReason.accepted consensus confidence)

/-- `TradeExecutor.calculate_position_size` (`executor.py` lines 510-542):
half-Kelly scaled by confidence, clamped below MAX_BET_SIZE (line 539),
above 1.0 (line 540), then rounded to two decimals (line 542). -/
def calculate_position_size (edge confidence bankroll : ℚ) : ℚ :=
  round2 (max (min (bankroll * (pyAbs edge * (confidence / 10) * (1/2)))
    MAX_BET_SIZE) 1)

/-- Outcome of `TradeExecutor.execute_signal` up to the external order
placement: either the skip dict of line 575 or the parameters handed to
`place_market_order` on line 587. -/
inductive ExecuteDecision where
  | skipped (reason : ValidateReason)
  | submit (token_id action side : String) (size : ℚ)
deriving DecidableEq

/-- `TradeExecutor.execute_signal` (`executor.py` lines 544-587) up to the
order placement: validate the signal, return the skip outcome when
validation fails, otherwise size the position with
`calculate_position_size` and submit a BUY order of that size.  The
network call itself and its result handling (lines 587-603) are the
external exchange collaborator. -/
def execute_signal (token_id action : String) (edge confidence : ℚ)
    (consensus : String) (bankroll : ℚ) : ExecuteDecision :=
  let v := validate_trade_signal action edge confidence consensus
  if v.1 = false then
    ExecuteDecision.skipped v.2
  else
    ExecuteDecision.submit token_id action "BUY"
      (calculate_position_size edge confidence bankroll)

theorem pyAbs_eq_abs (x : ℚ) : pyAbs x = |x| := by
  unfold pyAbs
  split
  · exact (abs_of_neg (by assumption)).symm
  · exact (abs_of_nonneg (not_lt.mp (by assumption))).symm

theorem roundHalfEven_ge_floor (x : ℚ) : ⌊x⌋ ≤ roundHalfEven x := by
  unfold roundHalfEven
  split
  · omega
  · split
    · omega
    · split <;> omega

theorem roundHalfEven_le_add_half (x : ℚ) :
    (roundHalfEven x : ℚ) ≤ x + 1/2 := by
  have hf : (⌊x⌋ : ℚ) ≤ x := Int.floor_le x
  unfold roundHalfEven
  by_cases h1 : x - ⌊x⌋ < 1/2
  · rw [if_pos h1]
    linarith
  · rw [if_neg h1]
    have h1a : 1/2 ≤ x - ⌊x⌋ := not_lt.mp h1
    by_cases h2 : 1/2 < x - ⌊x⌋
    · rw [if_pos h2]
      push_cast
      linarith
    · rw [if_neg h2]
      by_cases h3 : ⌊x⌋ % 2 = 0
      · rw [if_pos h3]
        linarith
      · rw [if_neg h3]
        push_cast
        linarith

theorem roundHalfEven_ge_of_ge (n : ℤ) (x : ℚ) (h : (n : ℚ) ≤ x) :
    n ≤ roundHalfEven x :=
  le_trans (Int.le_floor.mpr h) (roundHalfEven_ge_floor x)

theorem roundHalfEven_le_of_le (x : ℚ) (n : ℤ) (h : x ≤ (n : ℚ)) :
    roundHalfEven x ≤ n := by
  have hf : (⌊x⌋ : ℚ) ≤ x := Int.floor_le x
  have hfn : ⌊x⌋ ≤ n := by
    have := Int.floor_mono h
    simpa using this
  have hstep : 1/2 ≤ x - ⌊x⌋ → ⌊x⌋ + 1 ≤ n := by
    intro hs
    have hlt : (⌊x⌋ : ℚ) < (n : ℚ) := by linarith
    have : ⌊x⌋ < n := by exact_mod_cast hlt
    omega
  unfold roundHalfEven
  by_cases h1 : x - ⌊x⌋ < 1/2
  · rw [if_pos h1]
    exact hfn
  · rw [if_neg h1]
    have h1a : 1/2 ≤ x - ⌊x⌋ := not_lt.mp h1
    by_cases h2 : 1/2 < x - ⌊x⌋
    · rw [if_pos h2]
      exact hstep h1a
    · rw [if_neg h2]
      by_cases h3 : ⌊x⌋ % 2 = 0
      · rw [if_pos h3]
        exact hfn
      · rw [if_neg h3]
        exact hstep h1a

theorem round2_nonneg (x : ℚ) (h : 0 ≤ x) : 0 ≤ round2 x := by
  have h0 : (0 : ℤ) ≤ roundHalfEven (100 * x) :=
    roundHalfEven_ge_of_ge 0 _ (by push_cast; linarith)
  unfold round2
  have : (0 : ℚ) ≤ (roundHalfEven (100 * x) : ℚ) := by exact_mod_cast h0
  linarith

theorem round2_le_shift (x B : ℚ) (h : x ≤ B) : round2 x ≤ B + 1/200 := by
  have h1 := roundHalfEven_le_add_half (100 * x)
  unfold round2
  rw [div_le_iff (by norm_num : (0:ℚ) < 100)]
  linarith

theorem round2_ge_int (n : ℤ) (x : ℚ) (h : (n : ℚ) ≤ x) :
    (n : ℚ) ≤ round2 x := by
  have h0 : 100 * n ≤ roundHalfEven (100 * x) :=
    roundHalfEven_ge_of_ge (100 * n) _ (by push_cast; linarith)
  have h0q : ((100 * n : ℤ) : ℚ) ≤ (roundHalfEven (100 * x) : ℚ) := by
    exact_mod_cast h0
  unfold round2
  rw [le_div_iff (by norm_num : (0:ℚ) < 100)]
  push_cast at h0q ⊢
  linarith

theorem round2_le_int (x : ℚ) (n : ℤ) (h : x ≤ (n : ℚ)) :
    round2 x ≤ (n : ℚ) := by
  have h0 : roundHalfEven (100 * x) ≤ 100 * n :=
    roundHalfEven_le_of_le _ (100 * n) (by push_cast; linarith)
  have h0q : (roundHalfEven (100 * x) : ℚ) ≤ ((100 * n : ℤ) : ℚ) := by
    exact_mod_cast h0
  unfold round2
  rw [div_le_iff (by norm_num : (0:ℚ) < 100)]
  push_cast at h0q ⊢
  linarith

theorem kellyBody_invariant (cfg : KellyConfig) (s : Side) (e p o : ℚ)
    (hb : (kellyBody cfg s e p o).should_bet = true) :
    (kellyBody cfg s e p o).side ≠ none ∧
    0 ≤ (kellyBody cfg s e p o).bet_size ∧
    0 < cfg.bankroll * (kellyBody cfg s e p o).bet_percentage := by
  simp only [kellyBody, decide_eq_true_eq] at hb
  refine ⟨by simp [kellyBody], ?_, ?_⟩
  · simpa [kellyBody] using round2_nonneg _ hb.le
  · simp only [kellyBody]
    have hring : cfg.bankroll * (kellyCappedFraction cfg p o * 100) =
        100 * (cfg.bankroll * kellyCappedFraction cfg p o) := by ring
    rw [hring]
    linarith

/-- C1: `kelly_bet_size` is claimed to guard degenerate odds (market
probability 0 or 1) and resolve them to a zero-size rejection.  The code
does not: with the default configuration and an estimate of 0.5, a market
probability of 0 reaches `odds = 1 / market_prob` and a market probability
of 1 reaches `odds = 1 / (1 - market_prob)`, and both raise
ZeroDivisionError.  The `b > 0` guard of line 96 protects only the Kelly
quotient, not the odds computation. -/
theorem kelly_degenerate_odds_zero_division :
    kelly_bet_size defaultKellyConfig (1/2) 0 =
      Except.error "ZeroDivisionError: float division by zero" ∧
    kelly_bet_size defaultKellyConfig (1/2) 1 =
      Except.error "ZeroDivisionError: float division by zero" := by
  constructor <;>
    norm_num [kelly_bet_size, calculate_edge, defaultKellyConfig, pyAbs]

/-- C2 (amended): whenever `kelly_bet_size` returns a result with
`should_bet = true`, the side is YES or NO and the pre-rounding monetary
size (recoverable as `bankroll * bet_percentage / 100`) is strictly
positive; the returned `bet_size`, rounded to two decimals, is nonnegative
but is not always strictly positive. -/
theorem kelly_should_bet_invariant (cfg : KellyConfig) (e m : ℚ)
    (r : KellyResult) (hr : kelly_bet_size cfg e m = Except.ok r)
    (hb : r.should_bet = true) :
    r.side ≠ none ∧ 0 ≤ r.bet_size ∧ 0 < cfg.bankroll * r.bet_percentage := by
  simp only [kelly_bet_size, calculate_edge] at hr
  split at hr
  · cases hr
    simp at hb
  · split at hr
    · split at hr
      · exact absurd hr (by simp)
      · cases hr
        exact kellyBody_invariant cfg Side.yes _ _ _ hb
    · split at hr
      · exact absurd hr (by simp)
      · cases hr
        exact kellyBody_invariant cfg Side.no _ _ _ hb

/-- C2, counterexample to the claim as stated: with bankroll 0.04 dollars
and otherwise default configuration, an estimate of 0.70 against market
odds of 0.50 yields `should_bet = true` while the returned rounded
`bet_size` is 0.00 (the unrounded size is 0.002, below half a cent). -/
theorem kelly_rounded_size_zero_counterexample :
    (kelly_bet_size
        { bankroll := 1/25, max_bet_pct := 1/20, min_edge_pct := 3/20,
          kelly_fraction := 1/4 } (7/10) (1/2)).toOption.map
      (fun r => (r.should_bet, r.bet_size, r.side)) =
      some (true, 0, some Side.yes) := by
  norm_num [kelly_bet_size, calculate_edge, pyAbs, kellyBody,
    kellyCappedFraction, kellyRawFraction, round2, roundHalfEven,
    Except.toOption, max_def, min_def]

theorem kelly_should_bet_invariant_witness :
    ∃ r : KellyResult,
      kelly_bet_size defaultKellyConfig (7/10) (1/2) = Except.ok r ∧
      r.should_bet = true ∧
      (r.side ≠ none ∧ 0 ≤ r.bet_size ∧
        0 < defaultKellyConfig.bankroll * r.bet_percentage) := by
  have hr : kelly_bet_size defaultKellyConfig (7/10) (1/2) = Except.ok
      { should_bet := true, side := some Side.yes, edge := 1/5,
        kelly_raw := 2/5, kelly_adjusted := 1/10, bet_size := 5,
        bet_percentage := 5, expected_value := 1 } := by
    norm_num [kelly_bet_size, calculate_edge, defaultKellyConfig, pyAbs,
      kellyBody, kellyCappedFraction, kellyRawFraction, round2,
      roundHalfEven, max_def, min_def]
  exact ⟨_, hr, rfl,
    kelly_should_bet_invariant defaultKellyConfig (7/10) (1/2) _ hr rfl⟩

/-- C7: an absolute edge below `min_edge_pct` is rejected with
`should_bet = false`, zero size, no side, and the edge-below-minimum
reason; in particular estimate 0.52 against market 0.50 under the default
minimum edge of 0.15. -/
theorem kelly_min_edge_rejection (cfg : KellyConfig) (e m : ℚ)
    (h : |e - m| < cfg.min_edge_pct) :
    kelly_bet_size cfg e m = Except.ok
      { should_bet := false, side := none, edge := e - m, bet_size := 0,
        reason := some (RejectReason.edgeBelowMinimum (e - m)
          cfg.min_edge_pct) } ∧
    (kelly_bet_size defaultKellyConfig (13/25) (1/2)).toOption.map
      (fun r => r.should_bet) = some false := by
  constructor
  · simp only [kelly_bet_size, calculate_edge, pyAbs_eq_abs]
    rw [if_pos h]
  · norm_num [kelly_bet_size, calculate_edge, defaultKellyConfig, pyAbs,
      Except.toOption]

theorem kelly_min_edge_rejection_witness :
    kelly_bet_size defaultKellyConfig (13/25) (1/2) = Except.ok
      { should_bet := false, side := none, edge := 13/25 - 1/2,
        bet_size := 0,
        reason := some (RejectReason.edgeBelowMinimum (13/25 - 1/2)
          defaultKellyConfig.min_edge_pct) } :=
  (kelly_min_edge_rejection defaultKellyConfig (13/25) (1/2)
    (by rw [abs_of_pos (by norm_num)]; norm_num [defaultKellyConfig])).1

/-- C6: Mode B sizing is the confidence-scaled half-Kelly formula, clamped
to the interval from 1.0 to MAX_BET_SIZE = 10.0 and rounded to two decimal
places; edge 0.10, confidence 8, bankroll 100 give exactly 4.00. -/
theorem calculate_position_size_formula (edge confidence bankroll : ℚ) :
    calculate_position_size edge confidence bankroll =
      round2 (min (max (bankroll * (|edge| * (confidence / 10) * (1/2))) 1)
        10) ∧
    calculate_position_size (1/10) 8 100 = 4 := by
  constructor
  · unfold calculate_position_size MAX_BET_SIZE
    rw [pyAbs_eq_abs]
    congr 1
    simp only [max_def, min_def]
    split_ifs <;> linarith
  · norm_num [calculate_position_size, pyAbs, MAX_BET_SIZE, round2,
      roundHalfEven, max_def, min_def]

theorem kellyBody_bet_size_bounds (cfg : KellyConfig) (s : Side) (e p o : ℚ)
    (hbk : 0 ≤ cfg.bankroll) (hmx : 0 ≤ cfg.max_bet_pct) :
    0 ≤ (kellyBody cfg s e p o).bet_size ∧
    (∃ n : ℤ, (kellyBody cfg s e p o).bet_size = (n : ℚ) / 100) ∧
    cfg.bankroll * (kellyBody cfg s e p o).bet_percentage / 100 ≤
      cfg.max_bet_pct * cfg.bankroll ∧
    (kellyBody cfg s e p o).bet_size ≤
      cfg.max_bet_pct * cfg.bankroll + 1/200 := by
  have hc0 : 0 ≤ kellyCappedFraction cfg p o := le_max_right _ _
  have hc1 : kellyCappedFraction cfg p o ≤ cfg.max_bet_pct :=
    max_le (min_le_right _ _) hmx
  have hraw0 : 0 ≤ cfg.bankroll * kellyCappedFraction cfg p o :=
    mul_nonneg hbk hc0
  have hraw1 : cfg.bankroll * kellyCappedFraction cfg p o ≤
      cfg.max_bet_pct * cfg.bankroll := by
    calc cfg.bankroll * kellyCappedFraction cfg p o
        ≤ cfg.bankroll * cfg.max_bet_pct := mul_le_mul_of_nonneg_left hc1 hbk
      _ = cfg.max_bet_pct * cfg.bankroll := mul_comm _ _
  refine ⟨?_, ?_, ?_, ?_⟩
  · simpa [kellyBody] using round2_nonneg _ hraw0
  · exact ⟨roundHalfEven
      (100 * (cfg.bankroll * kellyCappedFraction cfg p o)),
      by simp [kellyBody, round2]⟩
  · have heq : cfg.bankroll * (kellyCappedFraction cfg p o * 100) / 100 =
        cfg.bankroll * kellyCappedFraction cfg p o := by ring
    simp only [kellyBody]
    rw [heq]
    exact hraw1
  · simpa [kellyBody] using round2_le_shift _ _ hraw1

/-- C8 (amended): with nonnegative bankroll and cap fraction, Mode A
returns a nonnegative size that is an exact multiple of one cent, its
pre-rounding monetary size (recoverable from the returned fields as
`bankroll * bet_percentage / 100`) never exceeds
`max_bet_pct * bankroll`, and the returned rounded size exceeds that cap
by at most half a cent of rounding slack; Mode B always returns a
nonnegative multiple of one cent; and on the concrete instance (estimate
0.70, market 0.50, defaults) the side is YES with a size strictly
positive and at most 5 dollars. -/
theorem sizing_nonneg_rounded_and_capped (cfg : KellyConfig) (e m : ℚ)
    (hbk : 0 ≤ cfg.bankroll) (hmx : 0 ≤ cfg.max_bet_pct) (r : KellyResult)
    (hr : kelly_bet_size cfg e m = Except.ok r) :
    (0 ≤ r.bet_size ∧ (∃ n : ℤ, r.bet_size = (n : ℚ) / 100) ∧
      cfg.bankroll * r.bet_percentage / 100 ≤
        cfg.max_bet_pct * cfg.bankroll ∧
      r.bet_size ≤ cfg.max_bet_pct * cfg.bankroll + 1/200) ∧
    (∀ e2 c2 b2 : ℚ, 0 ≤ calculate_position_size e2 c2 b2 ∧
      ∃ n : ℤ, calculate_position_size e2 c2 b2 = (n : ℚ) / 100) ∧
    (∃ r5 : KellyResult,
      kelly_bet_size defaultKellyConfig (7/10) (1/2) = Except.ok r5 ∧
      r5.side = some Side.yes ∧ 0 < r5.bet_size ∧ r5.bet_size ≤ 5) := by
  refine ⟨?_, ?_, ?_⟩
  · simp only [kelly_bet_size, calculate_edge] at hr
    split at hr
    · cases hr
      have hprod : 0 ≤ cfg.max_bet_pct * cfg.bankroll := mul_nonneg hmx hbk
      exact ⟨le_refl 0, ⟨0, by norm_num⟩, by simp; linarith,
        by simp; linarith⟩
    · split at hr
      · split at hr
        · exact absurd hr (by simp)
        · cases hr
          exact kellyBody_bet_size_bounds cfg Side.yes _ _ _ hbk hmx
      · split at hr
        · exact absurd hr (by simp)
        · cases hr
          exact kellyBody_bet_size_bounds cfg Side.no _ _ _ hbk hmx
  · intro e2 c2 b2
    have h1 : (1:ℚ) ≤
        max (min (b2 * (pyAbs e2 * (c2 / 10) * (1/2))) MAX_BET_SIZE) 1 :=
      le_max_right _ _
    constructor
    · unfold calculate_position_size
      exact round2_nonneg _ (by linarith)
    · exact ⟨roundHalfEven (100 *
        (max (min (b2 * (pyAbs e2 * (c2 / 10) * (1/2))) MAX_BET_SIZE) 1)),
        by simp [calculate_position_size, round2]⟩
  · have hr5 : kelly_bet_size defaultKellyConfig (7/10) (1/2) = Except.ok
        { should_bet := true, side := some Side.yes, edge := 1/5,
          kelly_raw := 2/5, kelly_adjusted := 1/10, bet_size := 5,
          bet_percentage := 5, expected_value := 1 } := by
      norm_num [kelly_bet_size, calculate_edge, defaultKellyConfig, pyAbs,
        kellyBody, kellyCappedFraction, kellyRawFraction, round2,
        roundHalfEven, max_def, min_def]
    exact ⟨_, hr5, rfl, by norm_num, by norm_num⟩

/-- C8, counterexample to the claim as stated: rounding can lift the size
above `max_bet_pct * bankroll`.  With bankroll 100 and cap fraction
0.00006 the capped unrounded size is 0.006, which rounds to 0.01, above
the 0.006-dollar cap. -/
theorem kelly_cap_exceeded_counterexample :
    ((kelly_bet_size
        { bankroll := 100, max_bet_pct := 3/50000, min_edge_pct := 3/20,
          kelly_fraction := 1/4 } (7/10) (1/2)).toOption.map
      (fun r => r.bet_size) = some (1/100)) ∧
    (3:ℚ)/50000 * 100 < 1/100 := by
  constructor
  · norm_num [kelly_bet_size, calculate_edge, pyAbs, kellyBody,
      kellyCappedFraction, kellyRawFraction, round2, roundHalfEven,
      Except.toOption, max_def, min_def]
  · norm_num

theorem sizing_nonneg_rounded_and_capped_witness :
    ∃ r : KellyResult,
      kelly_bet_size defaultKellyConfig (7/10) (1/2) = Except.ok r ∧
      0 ≤ r.bet_size ∧
      defaultKellyConfig.bankroll * r.bet_percentage / 100 ≤
        defaultKellyConfig.max_bet_pct * defaultKellyConfig.bankroll ∧
      r.bet_size ≤ defaultKellyConfig.max_bet_pct *
        defaultKellyConfig.bankroll + 1/200 := by
  have hr : kelly_bet_size defaultKellyConfig (7/10) (1/2) = Except.ok
      { should_bet := true, side := some Side.yes, edge := 1/5,
        kelly_raw := 2/5, kelly_adjusted := 1/10, bet_size := 5,
        bet_percentage := 5, expected_value := 1 } := by
    norm_num [kelly_bet_size, calculate_edge, defaultKellyConfig, pyAbs,
      kellyBody, kellyCappedFraction, kellyRawFraction, round2,
      roundHalfEven, max_def, min_def]
  have h := sizing_nonneg_rounded_and_capped defaultKellyConfig (7/10) (1/2)
    (by norm_num [defaultKellyConfig]) (by norm_num [defaultKellyConfig])
    _ hr
  exact ⟨_, hr, h.1.1, h.1.2.2.1, h.1.2.2.2⟩

/-- C5: the validator evaluates its three rules in order, names the first
failing rule in the returned reason, and accepts exactly when the action
is a directional bet, the confidence is at least 5, and the consensus is
not MIXED; in particular BET YES with confidence 4 under BULLISH consensus
is rejected for insufficient confidence. -/
theorem validate_trade_signal_rules (action : String) (edge confidence : ℚ)
    (consensus : String) :
    ((validate_trade_signal action edge confidence consensus).1 = true ↔
      ((action = "BET YES" ∨ action = "BET NO") ∧ 5 ≤ confidence ∧
        consensus ≠ "MIXED")) ∧
    (action ≠ "BET YES" → action ≠ "BET NO" →
      (validate_trade_signal action edge confidence consensus).2 =
        ValidateReason.nonTradeAction action) ∧
    ((action = "BET YES" ∨ action = "BET NO") → confidence < 5 →
      (validate_trade_signal action edge confidence consensus).2 =
        ValidateReason.insufficientConfidence confidence 5) ∧
    ((action = "BET YES" ∨ action = "BET NO") → 5 ≤ confidence →
      consensus = "MIXED" →
      (validate_trade_signal action edge confidence consensus).2 =
        ValidateReason.mixedConsensus) ∧
    validate_trade_signal "BET YES" edge 4 "BULLISH" =
      (false, ValidateReason.insufficientConfidence 4 5) := by
  refine ⟨?_, ?_, ?_, ?_, ?_⟩
  · unfold validate_trade_signal MIN_CONFIDENCE
    by_cases h1 : action ≠ "BET YES" ∧ action ≠ "BET NO"
    · rw [if_pos h1]
      simp only [Bool.false_eq_true, false_iff]
      rintro ⟨hA, -, -⟩
      rcases hA with hA | hA
      · exact h1.1 hA
      · exact h1.2 hA
    · rw [if_neg h1]
      rw [not_and_or, not_not, not_not] at h1
      by_cases h2 : confidence < 5
      · rw [if_pos h2]
        simp only [Bool.false_eq_true, false_iff]
        rintro ⟨-, hc, -⟩
        exact absurd hc (not_le.mpr h2)
      · rw [if_neg h2]
        by_cases h3 : consensus = "MIXED"
        · rw [if_pos h3]
          simp only [Bool.false_eq_true, false_iff]
          rintro ⟨-, -, hm⟩
          exact hm h3
        · rw [if_neg h3]
          simp only [true_iff]
          exact ⟨h1, not_lt.mp h2, h3⟩
  · intro hY hN
    unfold validate_trade_signal
    rw [if_pos ⟨hY, hN⟩]
  · intro hA hc
    have hact : ¬(action ≠ "BET YES" ∧ action ≠ "BET NO") := by
      rintro ⟨hY, hN⟩
      rcases hA with h | h
      · exact hY h
      · exact hN h
    unfold validate_trade_signal MIN_CONFIDENCE
    rw [if_neg hact, if_pos hc]
  · intro hA hc hm
    have hact : ¬(action ≠ "BET YES" ∧ action ≠ "BET NO") := by
      rintro ⟨hY, hN⟩
      rcases hA with h | h
      · exact hY h
      · exact hN h
    unfold validate_trade_signal MIN_CONFIDENCE
    rw [if_neg hact, if_neg (not_lt.mpr hc), if_pos hm]
  · norm_num [validate_trade_signal, MIN_CONFIDENCE]

theorem validate_trade_signal_rules_witness :
    (validate_trade_signal "HOLD" 0 7 "BULLISH").2 =
      ValidateReason.nonTradeAction "HOLD" :=
  (validate_trade_signal_rules "HOLD" 0 7 "BULLISH").2.1
    (by decide) (by decide)

/-- C10: Mode B sizing always lands in the interval from 1.00 to 10.00
dollars whatever the edge, confidence and bankroll; the consensus
execution path applies no minimum-edge check, so every signal that passes
the validator is submitted with a size of at least one dollar, and a
zero-edge BET YES signal with confidence 8 is sized at exactly 1.00. -/
theorem position_size_bounds_and_no_edge_check :
    (∀ e c b : ℚ, 1 ≤ calculate_position_size e c b ∧
      calculate_position_size e c b ≤ 10) ∧
    (∀ (t a : String) (e c : ℚ) (cons : String) (b : ℚ),
      (validate_trade_signal a e c cons).1 = true →
      ∃ s : ℚ, execute_signal t a e c cons b =
        ExecuteDecision.submit t a "BUY" s ∧ 1 ≤ s) ∧
    execute_signal "tok" "BET YES" 0 8 "BULLISH" 100 =
      ExecuteDecision.submit "tok" "BET YES" "BUY" 1 := by
  have hb : ∀ e c b : ℚ, 1 ≤ calculate_position_size e c b ∧
      calculate_position_size e c b ≤ 10 := by
    intro e c b
    have hlo : ((1:ℤ) : ℚ) ≤
        max (min (b * (pyAbs e * (c / 10) * (1/2))) MAX_BET_SIZE) 1 := by
      push_cast
      exact le_max_right _ _
    have hhi : max (min (b * (pyAbs e * (c / 10) * (1/2))) MAX_BET_SIZE) 1 ≤
        ((10:ℤ) : ℚ) := by
      push_cast
      exact max_le (le_trans (min_le_right _ _)
        (by norm_num [MAX_BET_SIZE])) (by norm_num)
    constructor
    · have := round2_ge_int 1 _ hlo
      unfold calculate_position_size
      exact_mod_cast this
    · have := round2_le_int _ 10 hhi
      unfold calculate_position_size
      exact_mod_cast this
  refine ⟨hb, ?_, ?_⟩
  · intro t a e c cons b hv
    refine ⟨calculate_position_size e c b, ?_, (hb e c b).1⟩
    unfold execute_signal
    rw [if_neg (by rw [hv]; exact fun h => Bool.true_eq_false.mp h)]
  · norm_num [execute_signal, validate_trade_signal, MIN_CONFIDENCE,
      calculate_position_size, pyAbs, MAX_BET_SIZE, round2, roundHalfEven,
      max_def, min_def]
    decide

theorem position_size_bounds_witness :
    ∃ s : ℚ, execute_signal "t1" "BET NO" 0 9 "BEARISH" 50 =
      ExecuteDecision.submit "t1" "BET NO" "BUY" s ∧ 1 ≤ s :=
  position_size_bounds_and_no_edge_check.2.1 "t1" "BET NO" 0 9 "BEARISH" 50
    (by norm_num [validate_trade_signal, MIN_CONFIDENCE]; decide)

theorem runConsensusLoop_results (co : ℚ) :
    ∀ calls : List (String × Except String String),
      (runConsensusLoop co calls).1 =
        calls.filterMap (fun c => c.2.toOption.map (parseToResult co c.1))
  | [] => rfl
  | c :: rest => by
    have ih := runConsensusLoop_results co rest
    obtain ⟨name, out⟩ := c
    cases out <;> simp [runConsensusLoop, ih, Except.toOption]

theorem runConsensusLoop_all_failed (co : ℚ) :
    ∀ calls : List (String × Except String String),
      (∀ c ∈ calls, c.2.isOk = false) → (runConsensusLoop co calls).1 = []
  | [], _ => rfl
  | c :: rest, h => by
    have hrest := runConsensusLoop_all_failed co rest
      (fun d hd => h d (List.mem_cons_of_mem c hd))
    have hc := h c (List.mem_cons_self c rest)
    obtain ⟨name, out⟩ := c
    cases out with
    | ok s => simp [Except.isOk, Except.toBool] at hc
    | error e => simp [runConsensusLoop, hrest]

/-- C4: when every model call failed, `consensus_analysis` returns the
structured ERROR/SKIP result and carries no substituted probability (the
average-probability key is absent); the embedding is a total function, so
no exception escapes. -/
theorem consensus_no_estimates_error (co : ℚ)
    (calls : List (String × Except String String))
    (h : ∀ c ∈ calls, c.2.isOk = false) :
    (consensus_analysis co calls).consensus = "ERROR" ∧
    (consensus_analysis co calls).recommendation = "SKIP" ∧
    (consensus_analysis co calls).avg_probability = none ∧
    (consensus_analysis co calls).error = some "All models failed" := by
  have hres := runConsensusLoop_all_failed co calls h
  simp [consensus_analysis, consensusFromResults, hres]

theorem consensus_no_estimates_error_witness :
    (consensus_analysis (1/2)
      [("openai/gpt-4o-mini", Except.error "boom")]).consensus = "ERROR" ∧
    (consensus_analysis (1/2)
      [("openai/gpt-4o-mini", Except.error "boom")]).recommendation =
        "SKIP" ∧
    (consensus_analysis (1/2)
      [("openai/gpt-4o-mini", Except.error "boom")]).avg_probability =
        none ∧
    (consensus_analysis (1/2)
      [("openai/gpt-4o-mini", Except.error "boom")]).error =
        some "All models failed" :=
  consensus_no_estimates_error (1/2) _
    (by intro c hc; simp at hc; subst hc; rfl)

/-- C3: for a non-empty results list the consensus direction follows the
vote counts at the fixed 0.05 edge threshold: BULLISH/BET YES with at
least 2 YES-votes, else BEARISH/BET NO with at least 2 NO-votes, else
MIXED/SKIP; in particular any 1-1-1 split resolves to MIXED/SKIP. -/
theorem consensus_direction_majority (co : ℚ) (results : List ModelResult)
    (errors : List (String × String)) (h : results ≠ []) :
    (((consensusFromResults co results errors).consensus,
      (consensusFromResults co results errors).recommendation) =
      if 2 ≤ (results.filter (fun r => decide ((1:ℚ)/20 < r.edge))).length
      then ("BULLISH", "BET YES")
      else if 2 ≤
        (results.filter (fun r => decide (r.edge < -(1/20)))).length
      then ("BEARISH", "BET NO")
      else ("MIXED", "SKIP")) ∧
    ((results.filter (fun r => decide ((1:ℚ)/20 < r.edge))).length = 1 →
     (results.filter (fun r => decide (r.edge < -(1/20)))).length = 1 →
     ((consensusFromResults co results errors).consensus,
      (consensusFromResults co results errors).recommendation) =
        ("MIXED", "SKIP")) := by
  have hne : results.isEmpty = false := by
    cases results with
    | nil => exact absurd rfl h
    | cons a l => rfl
  constructor
  · simp only [consensusFromResults, hne, Bool.false_eq_true, if_false]
    by_cases hA :
      2 ≤ (results.filter (fun r => decide ((1:ℚ)/20 < r.edge))).length
    · simp only [if_pos hA]
    · simp only [if_neg hA]
      by_cases hB :
        2 ≤ (results.filter (fun r => decide (r.edge < -(1/20)))).length
      · simp only [if_pos hB]
      · simp only [if_neg hB]
  · intro h1 h2
    have hA : ¬ 2 ≤
        (results.filter (fun r => decide ((1:ℚ)/20 < r.edge))).length := by
      rw [h1]
      norm_num
    have hB : ¬ 2 ≤
        (results.filter (fun r => decide (r.edge < -(1/20)))).length := by
      rw [h2]
      norm_num
    simp only [consensusFromResults, hne, Bool.false_eq_true, if_false,
      if_neg hA, if_neg hB]

theorem consensus_direction_majority_witness :
    ((consensusFromResults (1/2)
        [{ model := "gpt-4o-mini", probability := 3/5, confidence := 6,
           reasoning := "", edge := 1/10 },
         { model := "gemini-2.5-flash", probability := 2/5, confidence := 6,
           reasoning := "", edge := -(1/10) },
         { model := "claude-haiku-4.5", probability := 1/2, confidence := 6,
           reasoning := "", edge := 0 }] []).consensus,
      (consensusFromResults (1/2)
        [{ model := "gpt-4o-mini", probability := 3/5, confidence := 6,
           reasoning := "", edge := 1/10 },
         { model := "gemini-2.5-flash", probability := 2/5, confidence := 6,
           reasoning := "", edge := -(1/10) },
         { model := "claude-haiku-4.5", probability := 1/2, confidence := 6,
           reasoning := "", edge := 0 }] []).recommendation) =
      ("MIXED", "SKIP") := by
  apply (consensus_direction_majority (1/2) _ _ (by simp)).2
  · norm_num [List.filter_cons, decide_eq_true_eq]
  · norm_num [List.filter_cons, decide_eq_true_eq]

theorem parse_fold_fixed :
    ∀ (lines : List (List Char)) (st : ParsedFields),
      (∀ l ∈ lines, ("PROBABILITY:".data).isPrefixOf l = true →
        probParse l = none) →
      (∀ l ∈ lines, ("CONFIDENCE:".data).isPrefixOf l = true →
        confParse l = none) →
      (lines.foldl parseLine st).ai_prob = st.ai_prob ∧
      (lines.foldl parseLine st).confidence = st.confidence
  | [], _, _, _ => ⟨rfl, rfl⟩
  | l :: rest, st, hp, hc => by
    have hstep : (parseLine st l).ai_prob = st.ai_prob ∧
        (parseLine st l).confidence = st.confidence := by
      unfold parseLine
      by_cases h1 : ("PROBABILITY:".data).isPrefixOf l = true
      · rw [if_pos h1, hp l (List.mem_cons_self l rest) h1]
        exact ⟨rfl, rfl⟩
      · rw [if_neg h1]
        by_cases h2 : ("CONFIDENCE:".data).isPrefixOf l = true
        · rw [if_pos h2, hc l (List.mem_cons_self l rest) h2]
          exact ⟨rfl, rfl⟩
        · rw [if_neg h2]
          by_cases h3 : ("REASONING:".data).isPrefixOf l = true
          · rw [if_pos h3]
            exact ⟨rfl, rfl⟩
          · rw [if_neg h3]
            exact ⟨rfl, rfl⟩
    have ih := parse_fold_fixed rest (parseLine st l)
      (fun l2 hl2 => hp l2 (List.mem_cons_of_mem l hl2))
      (fun l2 hl2 => hc l2 (List.mem_cons_of_mem l hl2))
    rw [List.foldl_cons]
    exact ⟨ih.1.trans hstep.1, ih.2.trans hstep.2⟩

/-- C9: the model loop excludes exactly the calls that raised (the results
are the parsed successful responses, in order), and a successful response
in which no PROBABILITY line and no CONFIDENCE line parses contributes the
defaults: probability equal to the market odds, confidence 5, edge 0 —
a HOLD vote pulling the average toward the market price. -/
theorem consensus_inclusion_and_parse_defaults (co : ℚ)
    (calls : List (String × Except String String)) (name resp : String)
    (hp : ∀ l ∈ pyLines resp, ("PROBABILITY:".data).isPrefixOf l = true →
      probParse l = none)
    (hc : ∀ l ∈ pyLines resp, ("CONFIDENCE:".data).isPrefixOf l = true →
      confParse l = none) :
    (runConsensusLoop co calls).1 =
      calls.filterMap (fun c => c.2.toOption.map (parseToResult co c.1)) ∧
    (parseToResult co name resp).probability = co ∧
    (parseToResult co name resp).confidence = 5 ∧
    (parseToResult co name resp).edge = 0 := by
  have hfold := parse_fold_fixed (pyLines resp)
    { ai_prob := co, confidence := 5, reasoning := [] } hp hc
  refine ⟨runConsensusLoop_results co calls, ?_, ?_, ?_⟩
  · simpa [parseToResult] using hfold.1
  · simpa [parseToResult] using hfold.2
  · simp [parseToResult, hfold.1]

theorem consensus_inclusion_witness :
    ((runConsensusLoop (1/2)
        [("openai/gpt-4o-mini", Except.ok "hello"),
         ("google/gemini-2.5-flash", Except.error "boom")]).1 =
      [("openai/gpt-4o-mini", Except.ok "hello"),
       ("google/gemini-2.5-flash", Except.error "boom")].filterMap
        (fun c => c.2.toOption.map (parseToResult (1/2) c.1))) ∧
    (parseToResult (1/2) "openai/gpt-4o-mini" "hello").probability = 1/2 ∧
    (parseToResult (1/2) "openai/gpt-4o-mini" "hello").confidence = 5 ∧
    (parseToResult (1/2) "openai/gpt-4o-mini" "hello").edge = 0 :=
  consensus_inclusion_and_parse_defaults (1/2) _ "openai/gpt-4o-mini"
    "hello" (by decide) (by decide)
